import Mathlib

/-!
# Verification of the LeCoup-De-Pouce voice-controlled robot supervisor

Shallow embedding of the two source modules:

* `audio_detection.py` — `AudioKeywordDetector`: a registry (Python dict) of
  lower-cased keywords mapped to callbacks, and a dispatch routine that fires
  every callback whose key occurs as a substring of the lower-cased final
  transcript, catching callback exceptions.
* `main.py` — `VoiceControlledRobot`: a task supervisor that spawns an external
  process per voice command, enforces a 60-second timeout, stops the process
  with SIGINT / wait(5) / kill, and preempts a running task when a different
  task command arrives.

Strings are modelled as `List Char`; the Python dict as an insertion-ordered
association list with last-write-wins updates; the stateful supervisor as a
record of its fields plus an event trace recording spawns, signals, kills,
natural exits and announcements.  External nondeterminism (clock readings,
queue contents observed by the monitor, natural process exits, how a spawned
process reacts to SIGINT) is supplied as explicit inputs.
-/

/-! ## audio_detection.py : AudioKeywordDetector -/

/-- Python `str.lower()` applied to a transcript or keyword
(`text.lower()` / `keyword.lower()` in the source). -/
def lowerStr (s : List Char) : List Char := s.map Char.toLower

/-- `startsWith needle hay` holds when `needle` is an initial segment of
`hay`; auxiliary for Python substring containment. -/
def startsWith : List Char → List Char → Bool
  | [], _ => true
  | _ :: _, [] => false
  | n :: ns, h :: hs => n = h && startsWith ns hs

/-- Python substring containment `needle in hay` on strings
(used by `keyword in text_lower` at audio_detection.py:106). -/
def containsSub : List Char → List Char → Bool
  | [], needle => needle.isEmpty
  | c :: t, needle => startsWith needle (c :: t) || containsSub t needle

/-- A registered callback: an opaque identity plus whether invoking it raises
an exception (the only behaviours of a callback visible to the detector). -/
structure Callback where
  id : Nat
  raises : Bool
deriving DecidableEq

/-- The `_callbacks` dict: insertion-ordered association list from normalized
keyword to callback. -/
abbrev KeyDict := List (List Char × Callback)

/-- Observable things the detector does while dispatching. -/
inductive DetEvent where
  | fired (keyword : List Char) (id : Nat)
  | errorLogged (keyword : List Char)
deriving DecidableEq

/-- Python dict assignment `d[k] = v`: overwrite in place if the key is
present, else append (insertion order preserved). -/
def dictInsert (d : KeyDict) (k : List Char) (v : Callback) : KeyDict :=
  if d.any (fun p => decide (p.1 = k)) then
    d.map (fun p => if p.1 = k then (k, v) else p)
  else d ++ [(k, v)]

/-- `AudioKeywordDetector.register_keyword` (audio_detection.py:49-61):
stores the callback under the lower-cased keyword and under each lower-cased
alias. -/
def register_keyword (d : KeyDict) (keyword : List Char) (callback : Callback)
    (aliases : List (List Char)) : KeyDict :=
  List.foldl (fun acc a => dictInsert acc (lowerStr a) callback)
    (dictInsert d (lowerStr keyword) callback) aliases

/-- `AudioKeywordDetector.unregister_keyword` (audio_detection.py:63-65):
`self._callbacks.pop(keyword.lower(), None)`. -/
def unregister_keyword (d : KeyDict) (keyword : List Char) : KeyDict :=
  d.filter (fun p => decide (¬ p.1 = lowerStr keyword))

/-- One callback invocation inside the `try`/`except` of `_detect_keywords`
(audio_detection.py:109-112): the callback runs; if it raises, the error is
caught and logged. -/
def invoke_callback (k : List Char) (c : Callback) : List DetEvent :=
  if c.raises then [DetEvent.fired k c.id, DetEvent.errorLogged k]
  else [DetEvent.fired k c.id]

/-- The loop body of `AudioKeywordDetector._detect_keywords`
(audio_detection.py:104-112) over an already lower-cased transcript:
for each registered key, if it is a substring, invoke its callback. -/
def detect_keywords_scan : KeyDict → List Char → List DetEvent
  | [], _ => []
  | (k, c) :: rest, textLower =>
    (if containsSub textLower k then invoke_callback k c else [])
      ++ detect_keywords_scan rest textLower

/-- `AudioKeywordDetector._detect_keywords` (audio_detection.py:97-112):
lower-cases the transcript, then scans every registered key. -/
def detect_keywords (d : KeyDict) (text : List Char) : List DetEvent :=
  detect_keywords_scan d (lowerStr text)

/-- One output of the streaming recognizer: a final transcript segment or an
in-progress one. -/
inductive RecogOut where
  | finalSeg (text : List Char)
  | interim (text : List Char)

/-- One iteration of `AudioKeywordDetector._listen_loop`
(audio_detection.py:120-132): only a final, non-empty transcript is given to
`_detect_keywords`; in-progress text never triggers callbacks. -/
def listen_step (d : KeyDict) (out : RecogOut) : List DetEvent :=
  match out with
  | RecogOut.finalSeg text => if text.isEmpty then [] else detect_keywords d text
  | RecogOut.interim _ => []

/-- Does this event record the firing of key `k`? -/
def isFiredFor (k : List Char) (e : DetEvent) : Bool :=
  match e with
  | DetEvent.fired k2 _ => decide (k2 = k)
  | DetEvent.errorLogged _ => false

/-- The firings attributed to key `k` in a dispatch trace. -/
def firedEventsFor (k : List Char) (evs : List DetEvent) : List DetEvent :=
  evs.filter (isFiredFor k)

/-! ## main.py : VoiceControlledRobot -/

/-- `TASK_TIMEOUT` (main.py:10): maximum time per task, in time units
(seconds in the source). -/
def TASK_TIMEOUT : Nat := 60

/-- Grace period of `self.current_process.wait(timeout=5)` (main.py:100):
time a signalled process is given to exit voluntarily before `kill()`. -/
def GRACE_PERIOD : Nat := 5

/-- `VOICE_TASKS` (main.py:28-32): voice-command key to task description. -/
def VOICE_TASKS : List (String × String) :=
  [("glove", "Pick up and give the glove"),
   ("syringe", "Pick up and give the syringe"),
   ("pliers", "Pick up and give the pliers")]

/-- Python `task_key in VOICE_TASKS` / `VOICE_TASKS[task_key]` combined:
the description for a key, or `none` when the key is unknown. -/
def lookupTask (k : String) : Option String :=
  (VOICE_TASKS.find? (fun p => p.1 == k)).map Prod.snd

/-- `sanitize_name` (main.py:34-35): replace spaces and hyphens by
underscores (single-character replacements, so a character map). -/
def sanitize_name (name : List Char) : List Char :=
  name.map (fun c => if c = ' ' ∨ c = '-' then '_' else c)

/-- A supervised external process as the supervisor can observe it:
its pid, whether `poll()` currently reports it alive, and how many time
units after a SIGINT it would take to exit voluntarily (a process that
ignores SIGINT gets a value larger than the grace period). -/
structure Proc where
  pid : Nat
  alive : Bool
  sigintExitTime : Nat
deriving DecidableEq

/-- A command on `self.command_queue`: `("task", key)` or `("stop", None)`. -/
inductive Cmd where
  | task (key : String)
  | stop
deriving DecidableEq

/-- Observable actions of the supervisor, in order of occurrence. -/
inductive Event where
  | spawn (pid : Nat) (taskName : String)
  | sigint (pid : Nat)
  | exitedClean (pid : Nat)
  | killed (pid : Nat)
  | exited (pid : Nat)
  | announceTimeout
  | announceCompleted
  | logUnknown (key : String)
  | announceUnknown (key : String)
  | queuedTask (key : String)
  | queuedStop
  | announceStart (key : String)
  | announceStop
  | logDuplicate (key : String)
deriving DecidableEq

/-- The mutable fields of `VoiceControlledRobot` relevant to task
supervision, plus the event trace and the environment's schedule of
SIGINT behaviours for processes yet to be spawned (`pendingSpecs`). -/
structure St where
  currentProcess : Option Proc
  currentTaskName : Option String
  currentTaskKey : Option String
  commandQueue : List Cmd
  nextPid : Nat
  pendingSpecs : List Nat
  events : List Event
deriving DecidableEq

/-- `VoiceControlledRobot.__init__` (main.py:40-46): no process, no task,
empty queue; `specs` schedules the SIGINT behaviour of future processes. -/
def initSt (specs : List Nat) : St :=
  { currentProcess := none, currentTaskName := none, currentTaskKey := none,
    commandQueue := [], nextPid := 1, pendingSpecs := specs, events := [] }

/-- Python `self.current_process and self.current_process.poll() is None`. -/
def procAlive (s : St) : Bool :=
  match s.currentProcess with
  | some p => p.alive
  | none => false

/-- `VoiceControlledRobot._on_task_command` (main.py:70-82): suppress the
command if the same task is already running and alive, else enqueue it and
announce. -/
def on_task_command (s : St) (taskKey : String) : St :=
  if s.currentTaskKey = some taskKey ∧ procAlive s = true then
    { s with events := s.events ++ [Event.logDuplicate taskKey] }
  else
    { s with commandQueue := s.commandQueue ++ [Cmd.task taskKey],
             events := s.events ++ [Event.queuedTask taskKey, Event.announceStart taskKey] }

/-- `VoiceControlledRobot._on_stop_command` (main.py:84-91): always enqueue
a stop command and announce. -/
def on_stop_command (s : St) : St :=
  { s with commandQueue := s.commandQueue ++ [Cmd.stop],
           events := s.events ++ [Event.queuedStop, Event.announceStop] }

/-- `VoiceControlledRobot._stop_current_task` (main.py:93-108): if a process
exists and is alive, send SIGINT, wait up to `GRACE_PERIOD` for voluntary
exit, kill it if still alive, then clear process, task name and task key.
Otherwise do nothing. -/
def stop_current_task (s : St) : St :=
  match s.currentProcess with
  | some p =>
    if p.alive then
      { s with
        currentProcess := none, currentTaskName := none, currentTaskKey := none,
        events := s.events ++ (Event.sigint p.pid ::
          (if p.sigintExitTime ≤ GRACE_PERIOD then [Event.exitedClean p.pid]
           else [Event.killed p.pid])) }
    else s
  | none => s

/-- `VoiceControlledRobot._start_task` (main.py:110-135): reject unknown
keys with a log and an announcement; otherwise spawn the process (behaviour
drawn from `pendingSpecs`) and record process, task name and task key. -/
def start_task (s : St) (taskKey : String) : St :=
  match lookupTask taskKey with
  | none =>
    { s with events := s.events ++ [Event.logUnknown taskKey, Event.announceUnknown taskKey] }
  | some taskName =>
    { s with
      currentProcess := some
        { pid := s.nextPid, alive := true, sigintExitTime := s.pendingSpecs.headD 0 },
      currentTaskName := some taskName,
      currentTaskKey := some taskKey,
      nextPid := s.nextPid + 1,
      pendingSpecs := s.pendingSpecs.tail,
      events := s.events ++ [Event.spawn s.nextPid taskName] }

/-- The current process exits on its own: `poll()` starts returning a value. -/
def markExited (s : St) : St :=
  match s.currentProcess with
  | some p =>
    if p.alive then
      { s with currentProcess := some { p with alive := false },
               events := s.events ++ [Event.exited p.pid] }
    else s
  | none => s

/-- The block after the monitor loop (main.py:170-177): if the process is
still recorded but no longer alive, announce natural completion and clear
process, task name and task key. -/
def postLoopCheck (s : St) : St :=
  match s.currentProcess with
  | some p =>
    if p.alive then s
    else
      { s with currentProcess := none, currentTaskName := none, currentTaskKey := none,
               events := s.events ++ [Event.announceCompleted] }
  | none => s

/-- What one iteration of the monitor loop observes from the outside world:
the clock reading `now`, whether the process exited on its own since the last
iteration, and what `self.command_queue.get(timeout=0.1)` returns (`none`
models `queue.Empty`). -/
structure Tick where
  now : Nat
  procExits : Bool
  cmd : Option Cmd
deriving DecidableEq

/-- The `while` loop of `VoiceControlledRobot._monitor_task`
(main.py:142-168), one `Tick` per iteration: loop while the process is
alive; on timeout announce and stop; on a stop command stop; on a task
command stop the current task, start the new one and re-enter monitoring
with a fresh start time (the source's recursive `self._monitor_task()`
call); on an empty queue continue. -/
def monitor_loop : St → Nat → List Tick → St
  | s, _, [] => s
  | s, startTime, tick :: rest =>
    let s1 := if tick.procExits then markExited s else s
    match s1.currentProcess with
    | none => postLoopCheck s1
    | some p =>
      if p.alive then
        if tick.now - startTime > TASK_TIMEOUT then
          postLoopCheck (stop_current_task
            { s1 with events := s1.events ++ [Event.announceTimeout] })
        else
          match tick.cmd with
          | some Cmd.stop => postLoopCheck (stop_current_task s1)
          | some (Cmd.task k) =>
            let s2 := start_task (stop_current_task s1) k
            match s2.currentProcess with
            | none => s2
            | some _ => monitor_loop s2 tick.now rest
          | none => monitor_loop s1 startTime rest
      else postLoopCheck s1

/-- `VoiceControlledRobot._monitor_task` (main.py:137-177): return at once
when no process is recorded, else run the monitor loop from the entry-time
clock reading. -/
def monitor_task (s : St) (entryTime : Nat) (ticks : List Tick) : St :=
  match s.currentProcess with
  | none => s
  | some _ => monitor_loop s entryTime ticks

/-- What one iteration of the main `run` loop (main.py:195-209) observes:
an empty poll, a stop command, or a task command (with the clock reading at
which monitoring starts and the monitor-loop observations that follow). -/
inductive TopStep where
  | emptyPoll
  | stopCmd
  | taskCmd (key : String) (entryTime : Nat) (ticks : List Tick)

/-- The main loop of `VoiceControlledRobot.run` (main.py:195-209): a task
command stops any running task, starts the new one and monitors it; a stop
command stops any running task; an empty poll continues. -/
def run_loop : St → List TopStep → St
  | s, [] => s
  | s, TopStep.emptyPoll :: rest => run_loop s rest
  | s, TopStep.stopCmd :: rest => run_loop (stop_current_task s) rest
  | s, TopStep.taskCmd k t ticks :: rest =>
    run_loop (monitor_task (start_task (stop_current_task s) k) t ticks) rest

/-! ## Trace semantics: which process is live after a trace -/

/-- Which pid is live after observing one more event, given the pid live
before it: a spawn makes its pid live; a clean exit, kill or natural exit of
the live pid ends its liveness; announcements and log lines change nothing. -/
def stepLive (cur : Option Nat) (e : Event) : Option Nat :=
  match e with
  | Event.spawn pid _ => some pid
  | Event.exitedClean pid => if cur = some pid then none else cur
  | Event.killed pid => if cur = some pid then none else cur
  | Event.exited pid => if cur = some pid then none else cur
  | _ => cur

/-- A spawn is admissible only while no process is live. -/
def spawnOk (cur : Option Nat) (e : Event) : Bool :=
  match e with
  | Event.spawn _ _ => cur.isNone
  | _ => true

/-- The live pid after a whole trace. -/
def scanLive : Option Nat → List Event → Option Nat
  | cur, [] => cur
  | cur, e :: rest => scanLive (stepLive cur e) rest

/-- The trace never spawns a process while another is live: every spawn
(after the first) is preceded by the clean exit, kill or natural exit of the
previously spawned process. -/
def checkSpawns : Option Nat → List Event → Bool
  | _, [] => true
  | cur, e :: rest => spawnOk cur e && checkSpawns (stepLive cur e) rest

/-- The pid the supervisor state says is live. -/
def curLive (s : St) : Option Nat :=
  match s.currentProcess with
  | some p => if p.alive then some p.pid else none
  | none => none

/-- State invariant tying the event trace to the supervisor fields: the
trace never doubles up live processes, and the pid it says is live is the
one the state records. -/
def TraceInv (s : St) : Prop :=
  checkSpawns none s.events = true ∧ scanLive none s.events = curLive s

theorem scanLive_append (a b : List Event) : ∀ cur,
    scanLive cur (a ++ b) = scanLive (scanLive cur a) b := by
  induction a with
  | nil => intro cur; rfl
  | cons e rest ih =>
    intro cur
    show scanLive (stepLive cur e) (rest ++ b) = scanLive (scanLive (stepLive cur e) rest) b
    exact ih _

theorem checkSpawns_append (a b : List Event) : ∀ cur,
    checkSpawns cur (a ++ b)
      = (checkSpawns cur a && checkSpawns (scanLive cur a) b) := by
  induction a with
  | nil => intro cur; rfl
  | cons e rest ih =>
    intro cur
    show (spawnOk cur e && checkSpawns (stepLive cur e) (rest ++ b))
        = ((spawnOk cur e && checkSpawns (stepLive cur e) rest)
            && checkSpawns (scanLive (stepLive cur e) rest) b)
    rw [ih, Bool.and_assoc]

theorem inv_extend (s s2 : St) (E : List Event) (h : TraceInv s)
    (he : s2.events = s.events ++ E)
    (hc : checkSpawns (curLive s) E = true)
    (hs : scanLive (curLive s) E = curLive s2) : TraceInv s2 := by
  obtain ⟨h1, h2⟩ := h
  constructor
  · rw [he, checkSpawns_append, h1, h2, hc]; rfl
  · rw [he, scanLive_append, h2, hs]

theorem curLive_stop (s : St) : curLive (stop_current_task s) = none := by
  rcases hc : s.currentProcess with _ | p
  · simp [stop_current_task, hc, curLive]
  · cases ha : p.alive
    · simp [stop_current_task, hc, ha, curLive]
    · simp [stop_current_task, hc, ha, curLive]

theorem inv_stop (s : St) (h : TraceInv s) : TraceInv (stop_current_task s) := by
  rcases hc : s.currentProcess with _ | p
  · simpa [stop_current_task, hc] using h
  · cases ha : p.alive
    · simpa [stop_current_task, hc, ha] using h
    · have hcl : curLive s = some p.pid := by simp [curLive, hc, ha]
      refine inv_extend s _ (Event.sigint p.pid ::
        (if p.sigintExitTime ≤ GRACE_PERIOD then [Event.exitedClean p.pid]
         else [Event.killed p.pid])) h ?_ ?_ ?_
      · simp [stop_current_task, hc, ha]
      · by_cases hg : p.sigintExitTime ≤ GRACE_PERIOD <;>
          simp [checkSpawns, spawnOk, stepLive, hg]
      · rw [curLive_stop]
        by_cases hg : p.sigintExitTime ≤ GRACE_PERIOD <;>
          simp [scanLive, stepLive, hcl, hg]

theorem inv_start (s : St) (k : String) (h : TraceInv s) (hn : curLive s = none) :
    TraceInv (start_task s k) := by
  rcases hk : lookupTask k with _ | name
  · refine inv_extend s _ [Event.logUnknown k, Event.announceUnknown k] h ?_ ?_ ?_
    · simp [start_task, hk]
    · simp [checkSpawns, spawnOk, stepLive]
    · simp [scanLive, stepLive, start_task, hk, curLive]
  · refine inv_extend s _ [Event.spawn s.nextPid name] h ?_ ?_ ?_
    · simp [start_task, hk]
    · simp [checkSpawns, spawnOk, stepLive, hn]
    · simp [scanLive, stepLive, start_task, hk, curLive]

theorem inv_markExited (s : St) (h : TraceInv s) : TraceInv (markExited s) := by
  rcases hc : s.currentProcess with _ | p
  · simpa [markExited, hc] using h
  · cases ha : p.alive
    · simpa [markExited, hc, ha] using h
    · have hcl : curLive s = some p.pid := by simp [curLive, hc, ha]
      refine inv_extend s _ [Event.exited p.pid] h ?_ ?_ ?_
      · simp [markExited, hc, ha]
      · simp [checkSpawns, spawnOk, stepLive]
      · simp [scanLive, stepLive, hcl, markExited, hc, ha, curLive]

theorem inv_postLoopCheck (s : St) (h : TraceInv s) : TraceInv (postLoopCheck s) := by
  rcases hc : s.currentProcess with _ | p
  · simpa [postLoopCheck, hc] using h
  · cases ha : p.alive
    · have hcl : curLive s = none := by simp [curLive, hc, ha]
      refine inv_extend s _ [Event.announceCompleted] h ?_ ?_ ?_
      · simp [postLoopCheck, hc, ha]
      · simp [checkSpawns, spawnOk, stepLive]
      · simp [scanLive, stepLive, hcl, postLoopCheck, hc, ha, curLive]
    · simpa [postLoopCheck, hc, ha] using h

theorem inv_announceTimeout (s : St) (h : TraceInv s) :
    TraceInv { s with events := s.events ++ [Event.announceTimeout] } := by
  refine inv_extend s _ [Event.announceTimeout] h rfl ?_ ?_
  · simp [checkSpawns, spawnOk, stepLive]
  · simp [scanLive, stepLive, curLive]

theorem inv_monitor_loop (ticks : List Tick) : ∀ (s : St) (startTime : Nat),
    TraceInv s → TraceInv (monitor_loop s startTime ticks) := by
  induction ticks with
  | nil => intro s startTime h; simpa [monitor_loop] using h
  | cons tick rest ih =>
    intro s startTime h
    rw [monitor_loop]
    have h1 : TraceInv (if tick.procExits then markExited s else s) := by
      cases tick.procExits
      · simpa using h
      · simpa using inv_markExited s h
    generalize hq : (if tick.procExits then markExited s else s) = t at h1 ⊢
    rcases hcp : t.currentProcess with _ | p
    · simpa [hcp] using inv_postLoopCheck t h1
    · simp only [hcp]
      cases ha : p.alive
      · simpa [ha] using inv_postLoopCheck t h1
      · simp only [ha, if_true]
        by_cases ht : tick.now - startTime > TASK_TIMEOUT
        · simpa [ht, hcp] using
            inv_postLoopCheck _ (inv_stop _ (inv_announceTimeout t h1))
        · simp only [ht, if_false]
          rcases hcmd : tick.cmd with _ | c
          · exact ih t startTime h1
          · rcases c with k | _
            · simp only []
              have h2 : TraceInv (start_task (stop_current_task t) k) :=
                inv_start _ _ (inv_stop _ h1) (curLive_stop t)
              rcases hcp2 : (start_task (stop_current_task t) k).currentProcess with _ | q
              · simpa [hcp2] using h2
              · simpa [hcp2] using ih _ tick.now h2
            · exact inv_postLoopCheck _ (inv_stop _ h1)

theorem inv_monitor_task (s : St) (entryTime : Nat) (ticks : List Tick)
    (h : TraceInv s) : TraceInv (monitor_task s entryTime ticks) := by
  rcases hc : s.currentProcess with _ | p
  · simpa [monitor_task, hc] using h
  · simpa [monitor_task, hc] using inv_monitor_loop ticks s entryTime h

/-! ## Dispatch lemmas for the keyword detector -/

theorem firedFor_invoke (k k1 : List Char) (c1 : Callback) :
    firedEventsFor k (invoke_callback k1 c1)
      = if k1 = k then [DetEvent.fired k1 c1.id] else [] := by
  by_cases h : k1 = k <;> cases hc : c1.raises <;>
    simp [invoke_callback, firedEventsFor, isFiredFor, hc, h, List.filter]

theorem firedFor_append (k : List Char) (a b : List DetEvent) :
    firedEventsFor k (a ++ b) = firedEventsFor k a ++ firedEventsFor k b := by
  simp [firedEventsFor]

theorem detect_scan_eq_nil (d : KeyDict) (tL : List Char)
    (h : ∀ p ∈ d, containsSub tL p.1 = false) :
    detect_keywords_scan d tL = [] := by
  induction d with
  | nil => rfl
  | cons hd rest ih =>
    obtain ⟨k, c⟩ := hd
    have hk := h (k, c) (List.mem_cons_self _ _)
    simp only [detect_keywords_scan, hk, Bool.false_eq_true, if_false, List.nil_append]
    exact ih (fun p hp => h p (List.mem_cons_of_mem _ hp))

theorem firedFor_scan_eq_nil (d : KeyDict) (tL k : List Char)
    (h : k ∉ d.map Prod.fst) :
    firedEventsFor k (detect_keywords_scan d tL) = [] := by
  induction d with
  | nil => rfl
  | cons hd rest ih =>
    obtain ⟨k1, c1⟩ := hd
    have hne : k1 ≠ k := by
      intro he
      subst he
      refine h ?_
      rw [List.map_cons]
      exact List.mem_cons_self _ _
    have hrest : k ∉ rest.map Prod.fst := by
      intro hm
      refine h ?_
      rw [List.map_cons]
      exact List.mem_cons_of_mem _ hm
    simp only [detect_keywords_scan, firedFor_append, ih hrest, List.append_nil]
    by_cases hc : containsSub tL k1 = true
    · simp [hc, firedFor_invoke, hne]
    · simp [hc, firedEventsFor]

theorem firedFor_scan_count (d : KeyDict) (tL k : List Char) (c : Callback)
    (hnd : (d.map Prod.fst).Nodup) (hmem : (k, c) ∈ d) :
    firedEventsFor k (detect_keywords_scan d tL)
      = if containsSub tL k then [DetEvent.fired k c.id] else [] := by
  induction d with
  | nil => cases hmem
  | cons hd rest ih =>
    obtain ⟨k1, c1⟩ := hd
    rw [List.map_cons, List.nodup_cons] at hnd
    rcases List.mem_cons.mp hmem with heq | hmem2
    · injection heq with hk1 hc1
      subst hk1
      subst hc1
      have hrest : k ∉ rest.map Prod.fst := hnd.1
      simp only [detect_keywords_scan, firedFor_append,
        firedFor_scan_eq_nil rest tL k hrest, List.append_nil]
      by_cases hsub : containsSub tL k = true
      · simp [hsub, firedFor_invoke]
      · simp [hsub, firedEventsFor]
    · have hk1k : k1 ≠ k := by
        intro he
        apply hnd.1
        rw [he]
        exact List.mem_map.mpr ⟨(k, c), hmem2, rfl⟩
      simp only [detect_keywords_scan, firedFor_append, ih hnd.2 hmem2]
      by_cases hsub : containsSub tL k1 = true
      · simp [hsub, firedFor_invoke, hk1k]
      · simp [hsub, firedEventsFor]

theorem detect_scan_append (a b : KeyDict) (tL : List Char) :
    detect_keywords_scan (a ++ b) tL
      = detect_keywords_scan a tL ++ detect_keywords_scan b tL := by
  induction a with
  | nil => rfl
  | cons hd rest ih =>
    obtain ⟨k, c⟩ := hd
    simp [detect_keywords_scan, ih, List.append_assoc]

theorem detect_scan_mem (d : KeyDict) (tL k : List Char) (c : Callback)
    (hmem : (k, c) ∈ d) (hsub : containsSub tL k = true) :
    DetEvent.fired k c.id ∈ detect_keywords_scan d tL := by
  induction d with
  | nil => cases hmem
  | cons hd rest ih =>
    obtain ⟨k1, c1⟩ := hd
    rcases List.mem_cons.mp hmem with heq | h2
    · injection heq with hk1 hc1
      subst hk1
      subst hc1
      cases hr : c.raises <;>
        simp [detect_keywords_scan, hsub, invoke_callback, hr]
    · simp only [detect_keywords_scan, List.mem_append]
      exact Or.inr (ih h2)

/-! ## Registration lemmas for the keyword detector -/

theorem dictInsert_mem_self (d : KeyDict) (k : List Char) (v : Callback) :
    (k, v) ∈ dictInsert d k v := by
  unfold dictInsert
  by_cases h : d.any (fun p => decide (p.1 = k)) = true
  · simp only [h, if_true]
    rcases List.any_eq_true.mp h with ⟨p, hp, hpk⟩
    have hk : p.1 = k := of_decide_eq_true hpk
    refine List.mem_map.mpr ⟨p, hp, ?_⟩
    simp [hk]
  · simp only [h, if_false]
    exact List.mem_append_right _ (by simp)

theorem dictInsert_mem_preserve (d : KeyDict) (k0 k : List Char) (v : Callback)
    (h : (k0, v) ∈ d) : (k0, v) ∈ dictInsert d k v := by
  unfold dictInsert
  by_cases hc : d.any (fun p => decide (p.1 = k)) = true
  · simp only [hc, if_true]
    refine List.mem_map.mpr ⟨(k0, v), h, ?_⟩
    by_cases hk : k0 = k <;> simp [hk]
  · simp only [hc, if_false]
    exact List.mem_append_left _ h

theorem foldl_insert_preserve (aliases : List (List Char)) (cb : Callback) :
    ∀ (acc : KeyDict) (k0 : List Char), (k0, cb) ∈ acc →
    (k0, cb) ∈ List.foldl (fun acc2 a => dictInsert acc2 (lowerStr a) cb) acc aliases := by
  induction aliases with
  | nil => intro acc k0 h; exact h
  | cons x xs ih =>
    intro acc k0 h
    exact ih _ k0 (dictInsert_mem_preserve _ k0 _ cb h)

theorem foldl_insert_mem (aliases : List (List Char)) (cb : Callback) :
    ∀ (acc : KeyDict) (a : List Char), a ∈ aliases →
    (lowerStr a, cb) ∈ List.foldl (fun acc2 a2 => dictInsert acc2 (lowerStr a2) cb) acc aliases := by
  induction aliases with
  | nil => intro acc a ha; cases ha
  | cons x xs ih =>
    intro acc a ha
    rcases List.mem_cons.mp ha with rfl | hin
    · exact foldl_insert_preserve xs cb _ _ (dictInsert_mem_self _ _ _)
    · exact ih _ a hin

theorem register_mem_alias (d : KeyDict) (kw : List Char) (cb : Callback)
    (aliases : List (List Char)) (a : List Char) (ha : a ∈ aliases) :
    (lowerStr a, cb) ∈ register_keyword d kw cb aliases :=
  foldl_insert_mem aliases cb _ a ha

/-! ## Claim C1 -/

/-- Claim C1: for every registered normalized key, on a final non-empty
transcript the action bound to that key fires exactly once if and only if
the key occurs as a case-insensitive substring of the transcript; a
transcript matching no registered key triggers no action (and since this
holds for every registered key, a transcript containing several distinct
registered keys fires every matching action). -/
theorem c1_keyword_substring_dispatch (d : KeyDict) (text k : List Char) (c : Callback)
    (hnd : (d.map Prod.fst).Nodup) (hne : text.isEmpty = false) (hmem : (k, c) ∈ d) :
    (firedEventsFor k (listen_step d (RecogOut.finalSeg text))).length
        = (if containsSub (lowerStr text) k then 1 else 0)
    ∧ ((∀ p ∈ d, containsSub (lowerStr text) p.1 = false) →
        listen_step d (RecogOut.finalSeg text) = []) := by
  have hstep : listen_step d (RecogOut.finalSeg text)
      = detect_keywords_scan d (lowerStr text) := by
    simp [listen_step, hne, detect_keywords]
  constructor
  · rw [hstep, firedFor_scan_count d (lowerStr text) k c hnd hmem]
    by_cases hsub : containsSub (lowerStr text) k = true <;> simp [hsub]
  · intro h
    rw [hstep]
    exact detect_scan_eq_nil d (lowerStr text) h

/-- The registry of the demo wiring: `pliers` and its alias `player` share
one action, `glove` has its own. -/
def exDictC1 : KeyDict :=
  [("glove".toList, ⟨1, false⟩), ("pliers".toList, ⟨2, false⟩),
   ("player".toList, ⟨2, false⟩)]

theorem c1_witness :
    ((exDictC1.map Prod.fst).Nodup ∧ "give me the player".toList.isEmpty = false
      ∧ ("player".toList, (⟨2, false⟩ : Callback)) ∈ exDictC1)
    ∧ ((firedEventsFor "player".toList
          (listen_step exDictC1 (RecogOut.finalSeg "give me the player".toList))).length
        = (if containsSub (lowerStr "give me the player".toList) "player".toList then 1 else 0)
      ∧ ((∀ p ∈ exDictC1, containsSub (lowerStr "give me the player".toList) p.1 = false) →
          listen_step exDictC1 (RecogOut.finalSeg "give me the player".toList) = [])) :=
  ⟨⟨by decide, by decide, by decide⟩,
    c1_keyword_substring_dispatch exDictC1 "give me the player".toList "player".toList
      ⟨2, false⟩ (by decide) (by decide) (by decide)⟩

/-! ## Claim C7 -/

/-- Claim C7: an exception raised inside one keyword's action callback is
caught and logged at the point of invocation; the scan over the remaining
registered keys proceeds exactly as it would have, so every other matching
key still fires its own action. -/
theorem c7_callback_fault_isolated (pre post : KeyDict) (k : List Char) (c : Callback)
    (text : List Char) (hr : c.raises = true)
    (hm : containsSub (lowerStr text) k = true) :
    detect_keywords (pre ++ (k, c) :: post) text
      = detect_keywords pre text
        ++ (DetEvent.fired k c.id :: DetEvent.errorLogged k :: detect_keywords post text) := by
  show detect_keywords_scan (pre ++ (k, c) :: post) (lowerStr text) = _
  rw [detect_scan_append]
  simp [detect_keywords, detect_keywords_scan, hm, invoke_callback, hr]

theorem c7_witness :
    ((⟨7, true⟩ : Callback).raises = true
      ∧ containsSub (lowerStr "glove and pliers".toList) "glove".toList = true)
    ∧ detect_keywords
        ([] ++ ("glove".toList, (⟨7, true⟩ : Callback)) :: [("pliers".toList, ⟨2, false⟩)])
        "glove and pliers".toList
      = detect_keywords [] "glove and pliers".toList
        ++ (DetEvent.fired "glove".toList 7 :: DetEvent.errorLogged "glove".toList ::
            detect_keywords [("pliers".toList, ⟨2, false⟩)] "glove and pliers".toList) :=
  ⟨⟨rfl, by decide⟩,
    c7_callback_fault_isolated [] [("pliers".toList, ⟨2, false⟩)] "glove".toList
      ⟨7, true⟩ "glove and pliers".toList rfl (by decide)⟩

/-! ## Claim C9 -/

/-- Claim C9 counterexample: register `pliers` with alias `player`, then
`unregister_keyword "pliers"`; the alias `player` still triggers the bound
action, contradicting the claim that after the call neither the canonical
keyword nor any of its aliases triggers it. -/
theorem c9_counterexample :
    detect_keywords
        (unregister_keyword
          (register_keyword [] "pliers".toList ⟨0, false⟩ ["player".toList])
          "pliers".toList)
        "give me the player".toList
      = [DetEvent.fired "player".toList 0] := by decide

/-- Claim C9 (amended): `unregister_keyword` removes only the binding stored
under the normalized canonical keyword, and is a no-op when no such binding
exists; bindings registered for aliases are separate entries and survive, so
an alias whose normalized form differs from the canonical keyword still
triggers the bound action afterwards. -/
theorem c9_amended_unregister (d : KeyDict) (kw : List Char) (cb : Callback)
    (aliases : List (List Char)) (a text : List Char) (d2 : KeyDict)
    (ha : a ∈ aliases) (hkne : lowerStr a ≠ lowerStr kw)
    (hsub : containsSub (lowerStr text) (lowerStr a) = true)
    (h2 : ∀ q ∈ d2, q.1 ≠ lowerStr kw) :
    (∀ q ∈ unregister_keyword (register_keyword d kw cb aliases) kw, q.1 ≠ lowerStr kw)
    ∧ DetEvent.fired (lowerStr a) cb.id
        ∈ detect_keywords (unregister_keyword (register_keyword d kw cb aliases) kw) text
    ∧ unregister_keyword d2 kw = d2 := by
  refine ⟨?_, ?_, ?_⟩
  · intro q hq
    exact of_decide_eq_true (List.mem_filter.mp hq).2
  · have hmem2 : (lowerStr a, cb)
        ∈ unregister_keyword (register_keyword d kw cb aliases) kw :=
      List.mem_filter.mpr
        ⟨register_mem_alias d kw cb aliases a ha, decide_eq_true hkne⟩
    exact detect_scan_mem _ (lowerStr text) _ cb hmem2 hsub
  · apply List.filter_eq_self.mpr
    intro q hq
    exact decide_eq_true (h2 q hq)

theorem c9_witness :
    ("player".toList ∈ ["player".toList]
      ∧ lowerStr "player".toList ≠ lowerStr "pliers".toList
      ∧ containsSub (lowerStr "the player".toList) (lowerStr "player".toList) = true
      ∧ (∀ q ∈ ([("glove".toList, (⟨1, false⟩ : Callback))] : KeyDict),
          q.1 ≠ lowerStr "pliers".toList))
    ∧ ((∀ q ∈ unregister_keyword
          (register_keyword [] "pliers".toList ⟨0, false⟩ ["player".toList])
          "pliers".toList, q.1 ≠ lowerStr "pliers".toList)
      ∧ DetEvent.fired (lowerStr "player".toList) (⟨0, false⟩ : Callback).id
          ∈ detect_keywords
              (unregister_keyword
                (register_keyword [] "pliers".toList ⟨0, false⟩ ["player".toList])
                "pliers".toList)
              "the player".toList
      ∧ unregister_keyword [("glove".toList, (⟨1, false⟩ : Callback))] "pliers".toList
          = [("glove".toList, (⟨1, false⟩ : Callback))]) :=
  ⟨⟨by decide, by decide, by decide, by decide⟩,
    c9_amended_unregister [] "pliers".toList ⟨0, false⟩ ["player".toList]
      "player".toList "the player".toList [("glove".toList, ⟨1, false⟩)]
      (by decide) (by decide) (by decide) (by decide)⟩

theorem inv_run_loop (steps : List TopStep) : ∀ (s : St),
    TraceInv s → TraceInv (run_loop s steps) := by
  induction steps with
  | nil => intro s h; simpa [run_loop] using h
  | cons step rest ih =>
    intro s h
    rcases step with _ | _ | ⟨k, t, ticks⟩
    · exact ih s h
    · exact ih _ (inv_stop s h)
    · exact ih _ (inv_monitor_task _ t ticks
        (inv_start _ k (inv_stop s h) (curLive_stop s)))

/-! ## Claim C2 -/

/-- Claim C2: at most one live supervised process exists at any instant.  In
every event trace the supervisor can produce from its initial state — under
any schedule of commands, clock readings, natural exits and SIGINT
behaviours — a process is spawned only when no other process is live, i.e.
only after the previous process's termination (clean exit after SIGINT,
forced kill, or natural exit) has completed. -/
theorem c2_at_most_one_live_process (specs : List Nat) (steps : List TopStep) :
    checkSpawns none (run_loop (initSt specs) steps).events = true :=
  (inv_run_loop steps (initSt specs) ⟨rfl, rfl⟩).1

/-! ## Claim C3 -/

/-- Claim C3: stopping a running task sends SIGINT, waits at most the
5-unit grace period for voluntary exit, kills the process only if it is
still alive after that wait, and then clears process, task name and task
key; and the timeout branch, the stop-command branch and the preemption
branch of the monitor loop all invoke this same `stop_current_task`
sequence. -/
theorem c3_termination_sequence (s : St) (p : Proc) (startTime : Nat)
    (tickT tickS tickP : Tick) (rest : List Tick) (k2 : String)
    (hp : s.currentProcess = some p) (ha : p.alive = true)
    (hTe : tickT.procExits = false) (hTt : tickT.now - startTime > TASK_TIMEOUT)
    (hSe : tickS.procExits = false) (hSt : ¬ tickS.now - startTime > TASK_TIMEOUT)
    (hSc : tickS.cmd = some Cmd.stop)
    (hPe : tickP.procExits = false) (hPt : ¬ tickP.now - startTime > TASK_TIMEOUT)
    (hPc : tickP.cmd = some (Cmd.task k2)) :
    GRACE_PERIOD = 5
    ∧ (stop_current_task s).events
        = s.events ++ (Event.sigint p.pid ::
            (if p.sigintExitTime ≤ GRACE_PERIOD then [Event.exitedClean p.pid]
             else [Event.killed p.pid]))
    ∧ (stop_current_task s).currentProcess = none
    ∧ (stop_current_task s).currentTaskName = none
    ∧ (stop_current_task s).currentTaskKey = none
    ∧ monitor_loop s startTime (tickT :: rest)
        = postLoopCheck (stop_current_task
            { s with events := s.events ++ [Event.announceTimeout] })
    ∧ monitor_loop s startTime (tickS :: rest) = postLoopCheck (stop_current_task s)
    ∧ monitor_loop s startTime (tickP :: rest)
        = monitor_task (start_task (stop_current_task s) k2) tickP.now rest := by
  refine ⟨rfl, ?_, ?_, ?_, ?_, ?_, ?_, ?_⟩
  · simp [stop_current_task, hp, ha]
  · simp [stop_current_task, hp, ha]
  · simp [stop_current_task, hp, ha]
  · simp [stop_current_task, hp, ha]
  · simp [monitor_loop, hTe, hp, ha, hTt]
  · simp [monitor_loop, hSe, hp, ha, hSt, hSc]
  · rcases hq : (start_task (stop_current_task s) k2).currentProcess with _ | q <;>
      simp [monitor_loop, monitor_task, hPe, hp, ha, hPt, hPc, hq]

/-- A state in which the `glove` task is running: its process (pid 3)
ignores SIGINT (would need 99 units to exit voluntarily). -/
def exRun : St :=
  { currentProcess := some ⟨3, true, 99⟩,
    currentTaskName := some "Pick up and give the glove",
    currentTaskKey := some "glove", commandQueue := [], nextPid := 4,
    pendingSpecs := [0], events := [Event.spawn 3 "Pick up and give the glove"] }

theorem c3_witness :
    (exRun.currentProcess = some ⟨3, true, 99⟩ ∧ (Proc.mk 3 true 99).alive = true
      ∧ (Tick.mk 61 false none).procExits = false
      ∧ (Tick.mk 61 false none).now - 0 > TASK_TIMEOUT
      ∧ (Tick.mk 10 false (some Cmd.stop)).cmd = some Cmd.stop
      ∧ (Tick.mk 10 false (some (Cmd.task "pliers"))).cmd = some (Cmd.task "pliers"))
    ∧ (GRACE_PERIOD = 5
      ∧ (stop_current_task exRun).events
          = exRun.events ++ (Event.sigint 3 ::
              (if (99 : Nat) ≤ GRACE_PERIOD then [Event.exitedClean 3]
               else [Event.killed 3]))
      ∧ (stop_current_task exRun).currentProcess = none
      ∧ (stop_current_task exRun).currentTaskName = none
      ∧ (stop_current_task exRun).currentTaskKey = none
      ∧ monitor_loop exRun 0 [⟨61, false, none⟩]
          = postLoopCheck (stop_current_task
              { exRun with events := exRun.events ++ [Event.announceTimeout] })
      ∧ monitor_loop exRun 0 [⟨10, false, some Cmd.stop⟩]
          = postLoopCheck (stop_current_task exRun)
      ∧ monitor_loop exRun 0 [⟨10, false, some (Cmd.task "pliers")⟩]
          = monitor_task (start_task (stop_current_task exRun) "pliers") 10 []) :=
  ⟨⟨rfl, rfl, rfl, by decide, rfl, rfl⟩,
    c3_termination_sequence exRun ⟨3, true, 99⟩ 0
      ⟨61, false, none⟩ ⟨10, false, some Cmd.stop⟩ ⟨10, false, some (Cmd.task "pliers")⟩
      [] "pliers" rfl rfl rfl (by decide) rfl (by decide) rfl rfl (by decide) rfl⟩

/-! ## Claim C4 -/

/-- Claim C4: while a task is running, a monitor iteration whose clock
reading exceeds `TASK_TIMEOUT` (60 time units) past the start time, with no
intervening command, announces the timeout, runs the graceful-then-forced
termination sequence, clears the task handle and leaves the supervisor
idle. -/
theorem c4_timeout_stops_task (s : St) (p : Proc) (startTime : Nat) (tick : Tick)
    (rest : List Tick)
    (hp : s.currentProcess = some p) (ha : p.alive = true)
    (he : tick.procExits = false) (hc : tick.cmd = none)
    (ht : tick.now - startTime > TASK_TIMEOUT) :
    TASK_TIMEOUT = 60
    ∧ (monitor_loop s startTime (tick :: rest)).events
        = s.events ++ (Event.announceTimeout :: Event.sigint p.pid ::
            (if p.sigintExitTime ≤ GRACE_PERIOD then [Event.exitedClean p.pid]
             else [Event.killed p.pid]))
    ∧ (monitor_loop s startTime (tick :: rest)).currentProcess = none
    ∧ (monitor_loop s startTime (tick :: rest)).currentTaskName = none
    ∧ (monitor_loop s startTime (tick :: rest)).currentTaskKey = none := by
  have hml : monitor_loop s startTime (tick :: rest)
      = postLoopCheck (stop_current_task
          { s with events := s.events ++ [Event.announceTimeout] }) := by
    simp [monitor_loop, he, hp, ha, ht]
  rw [hml]
  refine ⟨rfl, ?_, ?_, ?_, ?_⟩ <;>
    by_cases hg : p.sigintExitTime ≤ GRACE_PERIOD <;>
      simp [stop_current_task, postLoopCheck, hp, ha, hg]

theorem c4_witness :
    (exRun.currentProcess = some ⟨3, true, 99⟩ ∧ (Proc.mk 3 true 99).alive = true
      ∧ (Tick.mk 61 false none).procExits = false ∧ (Tick.mk 61 false none).cmd = none
      ∧ (Tick.mk 61 false none).now - 0 > TASK_TIMEOUT)
    ∧ (TASK_TIMEOUT = 60
      ∧ (monitor_loop exRun 0 [⟨61, false, none⟩]).events
          = exRun.events ++ (Event.announceTimeout :: Event.sigint 3 ::
              (if (99 : Nat) ≤ GRACE_PERIOD then [Event.exitedClean 3]
               else [Event.killed 3]))
      ∧ (monitor_loop exRun 0 [⟨61, false, none⟩]).currentProcess = none
      ∧ (monitor_loop exRun 0 [⟨61, false, none⟩]).currentTaskName = none
      ∧ (monitor_loop exRun 0 [⟨61, false, none⟩]).currentTaskKey = none) :=
  ⟨⟨rfl, rfl, rfl, rfl, by decide⟩,
    c4_timeout_stops_task exRun ⟨3, true, 99⟩ 0 ⟨61, false, none⟩ []
      rfl rfl rfl rfl (by decide)⟩

/-! ## Claim C5 -/

/-- Claim C5: a task command for key `k`, received while a task with the
same key `k` is running and its process is alive, is rejected before
enqueue: the command queue is unchanged, no process is spawned, and the
only new event is the suppressed-duplicate log line. -/
theorem c5_duplicate_suppressed (s : St) (p : Proc) (k : String)
    (hk : s.currentTaskKey = some k) (hp : s.currentProcess = some p)
    (ha : p.alive = true) :
    on_task_command s k = { s with events := s.events ++ [Event.logDuplicate k] }
    ∧ (on_task_command s k).commandQueue = s.commandQueue
    ∧ (on_task_command s k).currentProcess = s.currentProcess := by
  refine ⟨?_, ?_, ?_⟩ <;> simp [on_task_command, procAlive, hk, hp, ha]

theorem c5_witness :
    (exRun.currentTaskKey = some "glove" ∧ exRun.currentProcess = some ⟨3, true, 99⟩
      ∧ (Proc.mk 3 true 99).alive = true)
    ∧ (on_task_command exRun "glove"
        = { exRun with events := exRun.events ++ [Event.logDuplicate "glove"] }
      ∧ (on_task_command exRun "glove").commandQueue = exRun.commandQueue
      ∧ (on_task_command exRun "glove").currentProcess = exRun.currentProcess) :=
  ⟨⟨rfl, rfl, rfl⟩, c5_duplicate_suppressed exRun ⟨3, true, 99⟩ "glove" rfl rfl rfl⟩

/-! ## Claim C6 -/

/-- Claim C6: a task command naming a key absent from `VOICE_TASKS` is
logged and announced and then aborted: no process is spawned and the
process, task-name and task-key fields are untouched (so an idle supervisor
stays idle with no task handle recorded). -/
theorem c6_unknown_task_rejected (s : St) (k : String) (hk : lookupTask k = none) :
    start_task s k
        = { s with events := s.events ++ [Event.logUnknown k, Event.announceUnknown k] }
    ∧ (start_task s k).currentProcess = s.currentProcess
    ∧ (start_task s k).currentTaskName = s.currentTaskName
    ∧ (start_task s k).currentTaskKey = s.currentTaskKey := by
  refine ⟨?_, ?_, ?_, ?_⟩ <;> simp [start_task, hk]

theorem c6_witness :
    lookupTask "unknown" = none
    ∧ (start_task (initSt []) "unknown"
        = { initSt [] with events := (initSt []).events
              ++ [Event.logUnknown "unknown", Event.announceUnknown "unknown"] }
      ∧ (start_task (initSt []) "unknown").currentProcess = (initSt []).currentProcess
      ∧ (start_task (initSt []) "unknown").currentTaskName = (initSt []).currentTaskName
      ∧ (start_task (initSt []) "unknown").currentTaskKey = (initSt []).currentTaskKey) :=
  ⟨by decide, c6_unknown_task_rejected (initSt []) "unknown" (by decide)⟩

/-! ## Claim C8 -/

/-- Claim C8: a stop command delivered while no supervised process is alive
is a no-op: `stop_current_task` returns the state unchanged (no signal, no
kill, no spawn, no announcement), and the main loop just proceeds. -/
theorem c8_stop_while_idle_noop (s : St) (rest : List TopStep)
    (h : procAlive s = false) :
    stop_current_task s = s
    ∧ run_loop s (TopStep.stopCmd :: rest) = run_loop s rest := by
  have h1 : stop_current_task s = s := by
    rcases hc : s.currentProcess with _ | p
    · simp [stop_current_task, hc]
    · have ha : p.alive = false := by simpa [procAlive, hc] using h
      simp [stop_current_task, hc, ha]
  refine ⟨h1, ?_⟩
  show run_loop (stop_current_task s) rest = run_loop s rest
  rw [h1]

theorem c8_witness :
    procAlive (initSt []) = false
    ∧ (stop_current_task (initSt []) = initSt []
      ∧ run_loop (initSt []) (TopStep.stopCmd :: [TopStep.emptyPoll])
          = run_loop (initSt []) [TopStep.emptyPoll]) :=
  ⟨rfl, c8_stop_while_idle_noop (initSt []) [TopStep.emptyPoll] rfl⟩

/-! ## Claim C10 -/

/-- Claim C10: on preemption the timeout clock restarts.  After a task
command for a different known key arrives at clock `t1.now`, the old task is
terminated, the new one is spawned, and monitoring resumes with start time
`t1.now`; a following iteration whose reading would have exceeded
`TASK_TIMEOUT` on the old clock (`t2.now - startTime > TASK_TIMEOUT`) but
not on the fresh one (`t2.now - t1.now ≤ TASK_TIMEOUT`) is a plain
continue — no timeout fires and no extra events are produced. -/
theorem c10_preemption_fresh_timeout (s : St) (p : Proc) (startTime : Nat)
    (t1 t2 : Tick) (rest : List Tick) (k2 name2 : String)
    (hp : s.currentProcess = some p) (ha : p.alive = true)
    (h1e : t1.procExits = false) (h1t : ¬ t1.now - startTime > TASK_TIMEOUT)
    (h1c : t1.cmd = some (Cmd.task k2)) (hk : lookupTask k2 = some name2)
    (h2e : t2.procExits = false) (h2c : t2.cmd = none)
    (hold : t2.now - startTime > TASK_TIMEOUT)
    (hnew : ¬ t2.now - t1.now > TASK_TIMEOUT) :
    monitor_loop s startTime (t1 :: t2 :: rest)
      = monitor_loop (start_task (stop_current_task s) k2) t1.now rest
    ∧ (start_task (stop_current_task s) k2).events
      = s.events ++ (Event.sigint p.pid ::
          (if p.sigintExitTime ≤ GRACE_PERIOD then [Event.exitedClean p.pid]
           else [Event.killed p.pid]))
        ++ [Event.spawn s.nextPid name2] := by
  have hq : (start_task (stop_current_task s) k2).currentProcess
      = some ⟨s.nextPid, true, s.pendingSpecs.headD 0⟩ := by
    simp [start_task, stop_current_task, hp, ha, hk]
  constructor
  · have hstep1 : monitor_loop s startTime (t1 :: t2 :: rest)
        = monitor_loop (start_task (stop_current_task s) k2) t1.now (t2 :: rest) := by
      simp [monitor_loop, h1e, hp, ha, h1t, h1c, hq]
    rw [hstep1]
    rw [monitor_loop]
    simp [h2e, hq, hnew, h2c]
  · simp [start_task, stop_current_task, hp, ha, hk]

theorem c10_witness :
    (exRun.currentProcess = some ⟨3, true, 99⟩ ∧ (Proc.mk 3 true 99).alive = true
      ∧ ¬ (Tick.mk 50 false (some (Cmd.task "pliers"))).now - 0 > TASK_TIMEOUT
      ∧ lookupTask "pliers" = some "Pick up and give the pliers"
      ∧ (Tick.mk 100 false none).now - 0 > TASK_TIMEOUT
      ∧ ¬ (Tick.mk 100 false none).now
            - (Tick.mk 50 false (some (Cmd.task "pliers"))).now > TASK_TIMEOUT)
    ∧ (monitor_loop exRun 0 [⟨50, false, some (Cmd.task "pliers")⟩, ⟨100, false, none⟩]
        = monitor_loop (start_task (stop_current_task exRun) "pliers") 50 []
      ∧ (start_task (stop_current_task exRun) "pliers").events
        = exRun.events ++ (Event.sigint 3 ::
            (if (99 : Nat) ≤ GRACE_PERIOD then [Event.exitedClean 3]
             else [Event.killed 3]))
          ++ [Event.spawn 4 "Pick up and give the pliers"]) :=
  ⟨⟨rfl, rfl, by decide, by decide, by decide, by decide⟩,
    c10_preemption_fresh_timeout exRun ⟨3, true, 99⟩ 0
      ⟨50, false, some (Cmd.task "pliers")⟩ ⟨100, false, none⟩ []
      "pliers" "Pick up and give the pliers"
      rfl rfl rfl (by decide) rfl (by decide) rfl rfl (by decide) (by decide)⟩
